import Mathlib

/-!
# Verification of the dicom-topng conversion pipeline

Shallow embedding of the two source files of the repository:

* `src/main.py` — `dicom_to_png` (pixel windowing, min/max normalization,
  error wrapping), `batch_convert_dicom_to_png`, `write_to_csv`;
* `src/utils/text_reader.py` — `DicomTextReader.get_study_info`,
  `DicomTextReader.get_patient_info`, `DicomTextReader.write_info`.

Python strings are embedded as Lean `String`; every string operation used by
the source (lower-casing, suffix tests, `os.path.splitext`, `os.path.basename`,
`os.path.join`, `str.removesuffix`, substring containment) is defined here
directly on the underlying character list, mirroring the CPython semantics for
the ASCII file names and separators the program manipulates (`os.path.join` is
modelled with the POSIX `'/'` separator and a relative second component).
Pixel values (`numpy.float64` in the source) are embedded as exact rationals;
the windowing and rescale arithmetic of the source is linear, so the exact
model agrees with the float one wherever no rounding occurs, and the final
`astype(np.uint8)` cast is modelled as floor-truncation modulo 256 (the values
produced by the pipeline are proved to lie in `[0, 255]`, where the two coincide).
Python exceptions are embedded as `Except` with an error-kind inductive;
external effects (pydicom file reading, the `dcmodify` subprocess) enter as
explicit oracle arguments describing their outcome.
-/

/-- Error kinds of the Python exceptions raised by the source
(`FileNotFoundError`, `pydicom.errors.InvalidDicomError`, `AttributeError`,
`ValueError`, `OSError`, and the bare `Exception` used as the generic
conversion-failure wrapper). -/
inductive PyErr where
  | fileNotFound (msg : String)
  | invalidDicom (msg : String)
  | attributeError (msg : String)
  | valueError (msg : String)
  | osError (msg : String)
  | generic (msg : String)
deriving DecidableEq, Repr

/-! ## String primitives (CPython `str` / `os.path` operations) -/

/-- Python `a + b` on `str`. -/
def strCat (a b : String) : String := ⟨a.data ++ b.data⟩

/-- Python `str.lower()` (ASCII file names only are fed to it here). -/
def strToLower (s : String) : String := ⟨s.data.map Char.toLower⟩

/-- Python `s.endswith(suffix)`. -/
def strEndsWith (s suffix : String) : Bool := suffix.data.isSuffixOf s.data

/-- Python `needle in hay` on `str` (substring containment). -/
def containsSub (hay needle : String) : Bool :=
  hay.data.tails.any (fun t => needle.data.isPrefixOf t)

/-- Python `s.removesuffix(suffix)`. -/
def removeSuffix (s suffix : String) : String :=
  if strEndsWith s suffix then ⟨s.data.take (s.data.length - suffix.data.length)⟩
  else s

/-- Model of `os.path.join a b` for a relative component `b` and the POSIX separator. -/
def joinPath (a b : String) : String := ⟨a.data ++ '/' :: b.data⟩

/-- Model of `os.path.basename`: the suffix after the last `'/'`. -/
def basename (s : String) : String :=
  ⟨(s.data.reverse.takeWhile (fun c => c != '/')).reverse⟩

/-- Helper for `os.path.splitext` on a path without separators: scanning the
reversed string, split at the first `'.'` from the right provided some
character before that dot (in the original string) is not a dot — CPython's
rule that a leading run of dots never starts an extension.  Returns the
reversed stem when the split happens. -/
def splitExtAux : List Char → Option (List Char)
  | [] => none
  | c :: rest =>
    if c = '.' then (if rest.any (fun d => d != '.') then some rest else none)
    else splitExtAux rest

/-- Model of `os.path.splitext(s)[0]` for a path without `'/'` (the source only applies
it to `os.listdir` entries and to `os.path.basename` results). -/
def splitExtStem (s : String) : String :=
  match splitExtAux s.data.reverse with
  | some revStem => ⟨revStem.reverse⟩
  | none => s

/-- The filter `file.lower().endswith((".dcm", ".dicom"))` — the batch filter of
`batch_convert_dicom_to_png` (src/main.py line 145). -/
def isDicomName (file : String) : Bool :=
  strEndsWith (strToLower file) ".dcm" || strEndsWith (strToLower file) ".dicom"

/-! ## The DICOM dataset and `DicomTextReader` (src/utils/text_reader.py)

A pydicom dataset, restricted to the string-valued tags the embedded code
reads.  `dataset.get(tag, "")` is `Option.getD ""`; plain attribute access
(`dcm.ViewPosition`) on an absent tag raises `AttributeError`. -/
structure Dataset where
  studyDate : Option String := none
  studyTime : Option String := none
  studyDescription : Option String := none
  studyID : Option String := none
  accessionNumber : Option String := none
  referringPhysicianName : Option String := none
  laterality : Option String := none
  viewPosition : Option String := none
  acquisitionDesc : Option String := none
  patientName : Option String := none
  patientID : Option String := none
  patientBirthDate : Option String := none
  patientSex : Option String := none
  patientAge : Option String := none
  patientWeight : Option String := none
  imageLaterality : Option String := none
  sopClassUID : Option String := none
deriving DecidableEq, Repr

/-- The dictionary built by `DicomTextReader.get_patient_info`. -/
structure PatientInfo where
  patientName : String
  patientID : String
  patientBirthDate : String
  patientSex : String
  patientAge : String
  patientWeight : String
deriving DecidableEq, Repr

/-- Model of `DicomTextReader.get_patient_info` (src/utils/text_reader.py lines 85-101):
each tag via `dataset.get(tag, "")`. -/
def get_patient_info (ds : Dataset) : PatientInfo :=
  { patientName := ds.patientName.getD ""
    patientID := ds.patientID.getD ""
    patientBirthDate := ds.patientBirthDate.getD ""
    patientSex := ds.patientSex.getD ""
    patientAge := ds.patientAge.getD ""
    patientWeight := ds.patientWeight.getD "" }

/-- The dictionary built by `DicomTextReader.get_study_info`. -/
structure StudyInfo where
  studyDate : String
  studyTime : String
  studyDescription : String
  studyID : String
  accessionNumber : String
  referringPhysicianName : String
  laterality : String
  viewPosition : String
deriving DecidableEq, Repr

/-- Model of `DicomTextReader.get_study_info` without the `modfiy` branch
(src/utils/text_reader.py lines 165-203): build `response` from
`dataset.get(tag, "")`, then, when `AcquisitionDeviceProcessingDescription`
is present and truthy (non-empty), overwrite `ViewPosition` on a `"MLO"` /
`"CC"` substring hit and `Laterality` on a `"R "` / `"L "` substring hit —
unconditionally, with no check that the explicit tag was blank. -/
def get_study_info (ds : Dataset) : StudyInfo :=
  let response : StudyInfo :=
    { studyDate := ds.studyDate.getD ""
      studyTime := ds.studyTime.getD ""
      studyDescription := ds.studyDescription.getD ""
      studyID := ds.studyID.getD ""
      accessionNumber := ds.accessionNumber.getD ""
      referringPhysicianName := ds.referringPhysicianName.getD ""
      laterality := ds.laterality.getD ""
      viewPosition := ds.viewPosition.getD "" }
  match ds.acquisitionDesc with
  | none => response
  | some desc =>
    if desc = "" then response
    else
      let r1 :=
        if containsSub desc "MLO" then { response with viewPosition := "MLO" }
        else if containsSub desc "CC" then { response with viewPosition := "CC" }
        else response
      if containsSub desc "R " then { r1 with laterality := "R" }
      else if containsSub desc "L " then { r1 with laterality := "L" }
      else r1

/-! ## C1 — laterality / view-position precedence in `get_study_info` -/

/-- A dataset with explicit, non-blank `Laterality = "L"` and
`ViewPosition = "CC"` and an acquisition description `"R MLO"` that matches
the opposite substrings. -/
def dsC1 : Dataset :=
  { laterality := some "L", viewPosition := some "CC",
    acquisitionDesc := some "R MLO" }

/-- C1 counterexample: the claim "the explicit tag value wins when both
sources are present and conflict" is false.  On `dsC1` the explicit tags are
present and non-blank (`"L"`, `"CC"`) yet `get_study_info` returns the values
inferred from the acquisition description (`"R"`, `"MLO"`). -/
theorem c1_explicit_loses_counterexample :
    dsC1.laterality = some "L" ∧ dsC1.viewPosition = some "CC" ∧
    (get_study_info dsC1).laterality = "R" ∧
    (get_study_info dsC1).laterality ≠ "L" ∧
    (get_study_info dsC1).viewPosition = "MLO" ∧
    (get_study_info dsC1).viewPosition ≠ "CC" := by
  decide

/-- C1 (amended): whenever the acquisition-description field is present and
non-empty, the substring inference overrides the explicit `Laterality` /
`ViewPosition` tags unconditionally — regardless of whether the explicit tag
was blank — and the explicit tag value is returned only when no substring
matches. -/
theorem c1_inference_overrides (ds : Dataset) (desc : String)
    (hd : ds.acquisitionDesc = some desc) (hne : desc ≠ "") :
    (containsSub desc "R " = true → (get_study_info ds).laterality = "R") ∧
    (containsSub desc "R " = false → containsSub desc "L " = true →
      (get_study_info ds).laterality = "L") ∧
    (containsSub desc "R " = false → containsSub desc "L " = false →
      (get_study_info ds).laterality = ds.laterality.getD "") ∧
    (containsSub desc "MLO" = true → (get_study_info ds).viewPosition = "MLO") ∧
    (containsSub desc "MLO" = false → containsSub desc "CC" = true →
      (get_study_info ds).viewPosition = "CC") ∧
    (containsSub desc "MLO" = false → containsSub desc "CC" = false →
      (get_study_info ds).viewPosition = ds.viewPosition.getD "") := by
  have hlat : (get_study_info ds).laterality =
      (if containsSub desc "R " = true then "R"
       else if containsSub desc "L " = true then "L"
       else ds.laterality.getD "") := by
    simp only [get_study_info, hd]
    rw [if_neg hne]
    split <;> split <;> simp_all [apply_ite StudyInfo.laterality]
  have hview : (get_study_info ds).viewPosition =
      (if containsSub desc "MLO" = true then "MLO"
       else if containsSub desc "CC" = true then "CC"
       else ds.viewPosition.getD "") := by
    simp only [get_study_info, hd]
    rw [if_neg hne]
    split <;> split <;> simp_all [apply_ite StudyInfo.viewPosition]
  refine ⟨?_, ?_, ?_, ?_, ?_, ?_⟩ <;> intros <;> simp_all

/-- Witness for `c1_inference_overrides` at the concrete dataset `dsC1`. -/
theorem c1_inference_overrides_witness :
    dsC1.acquisitionDesc = some "R MLO" ∧ ("R MLO" : String) ≠ "" ∧
    containsSub "R MLO" "R " = true ∧ (get_study_info dsC1).laterality = "R" :=
  ⟨rfl, by decide, by decide,
    (c1_inference_overrides dsC1 "R MLO" rfl (by decide)).1 (by decide)⟩

/-! ## The pixel pipeline of `dicom_to_png` (src/main.py lines 53-112)

`numpy` reductions `arr.min()` / `arr.max()` over the flattened array are the
fold of `min` / `max` over the element list (they raise on an empty array, so
the embedded pipeline guards the empty case with the corresponding
`ValueError`). -/

/-- Model of `arr.min()` with a default for the empty array (numpy raises there;
callers below only use non-empty lists or guard the empty case). -/
def npMin {α : Type} [LinearOrder α] (d : α) : List α → α
  | [] => d
  | x :: xs => xs.foldl min x

/-- Model of `arr.max()`, dually to `npMin`. -/
def npMax {α : Type} [LinearOrder α] (d : α) : List α → α
  | [] => d
  | x :: xs => xs.foldl max x

/-- The `np.uint8` cast of a nonnegative float: truncation modulo 256.  The
pipeline below only ever casts values in `[0, 255]`, where this equals the
`numpy` conversion. -/
def toUint8 (q : ℚ) : ℕ := (⌊q⌋).toNat % 256

/-- One pixel of `((image - image.min()) / (image.max() - image.min()) * 255)
.astype(np.uint8)` (src/main.py lines 72-74). -/
def normPixel (m M x : ℚ) : ℕ := toUint8 ((x - m) / (M - m) * 255)

/-- The normalization step of `dicom_to_png` (src/main.py lines 71-76):
rescale by the observed min/max when they differ, else `np.zeros_like`. -/
def normalizeArr (l : List ℚ) : List ℕ :=
  if npMax 0 l ≠ npMin 0 l then l.map (normPixel (npMin 0 l) (npMax 0 l))
  else l.map (fun _ => 0)

/-- The windowing step of `dicom_to_png` (src/main.py lines 65-68): when both
parameters are given, `np.clip(image, center - width // 2, center + width // 2)`
(Python `//` is floor division, `Int.fdiv`); otherwise the array is unchanged. -/
def applyWindow (wc ww : Option ℤ) (l : List ℚ) : List ℚ :=
  match wc, ww with
  | some c, some w =>
    l.map (fun x =>
      min (max x ((c - Int.fdiv w 2 : ℤ) : ℚ)) ((c + Int.fdiv w 2 : ℤ) : ℚ))
  | _, _ => l

/-- Outcome of `pydicom.dcmread` plus the `pixel_array` attribute: the file
may be missing, unparseable, or parsed with or without pixel data. -/
inductive ReadResult where
  | notFound
  | invalid
  | ok (pixels : Option (List ℚ))
deriving DecidableEq, Repr

/-- Body of the outer `try` of `dicom_to_png` up to the encoded array
(src/main.py lines 56-76): read, extract `pixel_array` (an absent attribute
raises `AttributeError("DICOM file does not contain pixel data")`, lines
59-62), window, normalize.  The empty-array `ValueError` of `image.max()` is
the guard before `normalize`. -/
def dicom_to_png_body (read : ReadResult) (wc ww : Option ℤ) :
    Except PyErr (List ℕ) :=
  match read with
  | .notFound => .error (.fileNotFound "dcmread")
  | .invalid => .error (.invalidDicom "dcmread")
  | .ok px =>
    match px with
    | none => .error (.attributeError "DICOM file does not contain pixel data")
    | some pixels =>
      let image := applyWindow wc ww pixels
      if image.length = 0 then
        .error (.valueError
          "zero-size array to reduction operation maximum which has no identity")
      else .ok (normalizeArr image)

/-- The exception handlers of `dicom_to_png` (src/main.py lines 102-112):
`FileNotFoundError` and `InvalidDicomError` are re-raised as themselves with a
path-bearing message; every other exception — including the deliberately
raised no-pixel-data `AttributeError` — is caught by `except Exception` and
re-raised as the generic `Exception("Error converting DICOM to PNG: ...")`. -/
def wrapOuter (path : String) : Except PyErr (List ℕ) → Except PyErr (List ℕ)
  | .ok v => .ok v
  | .error (.fileNotFound _) =>
    .error (.fileNotFound (strCat "DICOM file not found: " path))
  | .error (.invalidDicom _) =>
    .error (.invalidDicom (strCat "Invalid DICOM file: " path))
  | .error (.attributeError m) =>
    .error (.generic (strCat "Error converting DICOM to PNG: " m))
  | .error (.valueError m) =>
    .error (.generic (strCat "Error converting DICOM to PNG: " m))
  | .error (.osError m) =>
    .error (.generic (strCat "Error converting DICOM to PNG: " m))
  | .error (.generic m) =>
    .error (.generic (strCat "Error converting DICOM to PNG: " m))

/-- Model of `dicom_to_png` restricted to its pixel pipeline and error contract: the
body under the outer exception handlers. -/
def dicom_to_png_core (read : ReadResult) (wc ww : Option ℤ) (path : String) :
    Except PyErr (List ℕ) :=
  wrapOuter path (dicom_to_png_body read wc ww)

/-! ### Facts about the fold-based `npMin` / `npMax` -/

theorem foldl_min_le_init {α : Type} [LinearOrder α] (l : List α) (a : α) :
    l.foldl min a ≤ a := by
  induction l generalizing a with
  | nil => simp
  | cons b t ih => exact le_trans (ih (min a b)) (min_le_left a b)

theorem foldl_min_le_mem {α : Type} [LinearOrder α] (l : List α) (a x : α)
    (hx : x ∈ l) : l.foldl min a ≤ x := by
  induction l generalizing a with
  | nil => cases hx
  | cons b t ih =>
    rcases List.mem_cons.mp hx with rfl | hx'
    · exact le_trans (foldl_min_le_init t (min a x)) (min_le_right a x)
    · exact ih (min a b) hx'

theorem foldl_min_mem {α : Type} [LinearOrder α] (l : List α) (a : α) :
    l.foldl min a = a ∨ l.foldl min a ∈ l := by
  induction l generalizing a with
  | nil => exact Or.inl rfl
  | cons b t ih =>
    rw [List.foldl_cons]
    rcases ih (min a b) with h | h
    · rcases min_choice a b with h2 | h2
      · exact Or.inl (h.trans h2)
      · exact Or.inr (by rw [h, h2]; exact List.mem_cons_self b t)
    · exact Or.inr (List.mem_cons_of_mem b h)

theorem le_foldl_max_init {α : Type} [LinearOrder α] (l : List α) (a : α) :
    a ≤ l.foldl max a := by
  induction l generalizing a with
  | nil => simp
  | cons b t ih => exact le_trans (le_max_left a b) (ih (max a b))

theorem le_foldl_max_mem {α : Type} [LinearOrder α] (l : List α) (a x : α)
    (hx : x ∈ l) : x ≤ l.foldl max a := by
  induction l generalizing a with
  | nil => cases hx
  | cons b t ih =>
    rcases List.mem_cons.mp hx with rfl | hx'
    · exact le_trans (le_max_right a x) (le_foldl_max_init t (max a x))
    · exact ih (max a b) hx'

theorem foldl_max_mem {α : Type} [LinearOrder α] (l : List α) (a : α) :
    l.foldl max a = a ∨ l.foldl max a ∈ l := by
  induction l generalizing a with
  | nil => exact Or.inl rfl
  | cons b t ih =>
    rw [List.foldl_cons]
    rcases ih (max a b) with h | h
    · rcases max_choice a b with h2 | h2
      · exact Or.inl (h.trans h2)
      · exact Or.inr (by rw [h, h2]; exact List.mem_cons_self b t)
    · exact Or.inr (List.mem_cons_of_mem b h)

theorem npMin_le {α : Type} [LinearOrder α] (d : α) (l : List α) (x : α)
    (hx : x ∈ l) : npMin d l ≤ x := by
  cases l with
  | nil => cases hx
  | cons b t =>
    rcases List.mem_cons.mp hx with rfl | hx'
    · exact foldl_min_le_init t x
    · exact foldl_min_le_mem t b x hx'

theorem le_npMax {α : Type} [LinearOrder α] (d : α) (l : List α) (x : α)
    (hx : x ∈ l) : x ≤ npMax d l := by
  cases l with
  | nil => cases hx
  | cons b t =>
    rcases List.mem_cons.mp hx with rfl | hx'
    · exact le_foldl_max_init t x
    · exact le_foldl_max_mem t b x hx'

theorem npMin_mem {α : Type} [LinearOrder α] (d : α) (l : List α)
    (h : l ≠ []) : npMin d l ∈ l := by
  cases l with
  | nil => exact absurd rfl h
  | cons b t =>
    show t.foldl min b ∈ b :: t
    rcases foldl_min_mem t b with h2 | h2
    · rw [h2]; exact List.mem_cons_self b t
    · exact List.mem_cons_of_mem b h2

theorem npMax_mem {α : Type} [LinearOrder α] (d : α) (l : List α)
    (h : l ≠ []) : npMax d l ∈ l := by
  cases l with
  | nil => exact absurd rfl h
  | cons b t =>
    show t.foldl max b ∈ b :: t
    rcases foldl_max_mem t b with h2 | h2
    · rw [h2]; exact List.mem_cons_self b t
    · exact List.mem_cons_of_mem b h2

/-! ### Facts about one rescaled pixel -/

theorem normPixel_self_min (m M : ℚ) : normPixel m M m = 0 := by
  simp [normPixel, toUint8]

theorem normPixel_self_max {m M : ℚ} (hm : m < M) : normPixel m M M = 255 := by
  have hd : M - m ≠ 0 := ne_of_gt (sub_pos.mpr hm)
  simp [normPixel, toUint8, div_self hd]

theorem normPixel_le_255 {m M x : ℚ} (hm : m < M) (h2 : x ≤ M) :
    normPixel m M x ≤ 255 := by
  have hd : (0:ℚ) < M - m := sub_pos.mpr hm
  have hub : (x - m) / (M - m) * 255 ≤ 255 := by
    have hr : (x - m) / (M - m) ≤ 1 :=
      (div_le_one hd).mpr (sub_le_sub_right h2 m)
    calc (x - m) / (M - m) * 255 ≤ 1 * 255 :=
          mul_le_mul_of_nonneg_right hr (by norm_num)
      _ = 255 := one_mul 255
  have hfl : (⌊(x - m) / (M - m) * 255⌋ : ℤ) ≤ 255 := by
    have := Int.floor_le_floor hub
    simpa using this
  have : (⌊(x - m) / (M - m) * 255⌋).toNat ≤ 255 := Int.toNat_le.mpr hfl
  calc normPixel m M x ≤ (⌊(x - m) / (M - m) * 255⌋).toNat :=
        Nat.mod_le _ _
    _ ≤ 255 := this

theorem normPixel_mono {m M x y : ℚ} (hm : m < M) (h2 : y ≤ M)
    (hxy : x ≤ y) : normPixel m M x ≤ normPixel m M y := by
  have hd : (0:ℚ) < M - m := sub_pos.mpr hm
  have hq : (x - m) / (M - m) * 255 ≤ (y - m) / (M - m) * 255 := by
    have : (x - m) / (M - m) ≤ (y - m) / (M - m) :=
      (div_le_div_iff_of_pos_right hd).mpr (sub_le_sub_right hxy m)
    exact mul_le_mul_of_nonneg_right this (by norm_num)
  have hfl := Int.toNat_le_toNat (Int.floor_le_floor hq)
  have hyub : (⌊(y - m) / (M - m) * 255⌋).toNat ≤ 255 := by
    have hub : (y - m) / (M - m) * 255 ≤ 255 := by
      have hr : (y - m) / (M - m) ≤ 1 :=
        (div_le_one hd).mpr (sub_le_sub_right h2 m)
      calc (y - m) / (M - m) * 255 ≤ 1 * 255 :=
            mul_le_mul_of_nonneg_right hr (by norm_num)
        _ = 255 := one_mul 255
    have := Int.floor_le_floor hub
    exact Int.toNat_le.mpr (by simpa using this)
  have hxub : (⌊(x - m) / (M - m) * 255⌋).toNat ≤ 255 := le_trans hfl hyub
  unfold normPixel toUint8
  rw [Nat.mod_eq_of_lt (lt_of_le_of_lt hxub (by norm_num)),
    Nat.mod_eq_of_lt (lt_of_le_of_lt hyub (by norm_num))]
  exact hfl

theorem normalizeArr_length (l : List ℚ) :
    (normalizeArr l).length = l.length := by
  unfold normalizeArr
  split <;> simp

/-! ## C2 — the no-pixel-data failure of `dicom_to_png` -/

/-- C2: contrary to the claim (and to the evident intent of the inner
`raise AttributeError("DICOM file does not contain pixel data")`), a dataset
without pixel data does **not** surface the distinct no-pixel-data kind: the
outer `except Exception` handler (src/main.py lines 110-112) catches the
`AttributeError` and re-raises the generic conversion-failure `Exception`,
whose message merely embeds the no-pixel-data cause.  This holds for every
window-parameter combination and every path. -/
theorem c2_no_pixel_data_wrapped_generic (wc ww : Option ℤ) (path : String) :
    dicom_to_png_core (.ok none) wc ww path =
      .error (.generic (strCat "Error converting DICOM to PNG: "
        "DICOM file does not contain pixel data")) ∧
    ∀ m, dicom_to_png_core (.ok none) wc ww path ≠
      .error (.attributeError m) := by
  refine ⟨rfl, ?_⟩
  intro m h
  simp [dicom_to_png_core, dicom_to_png_body, wrapOuter] at h

/-! ## C3 — windowing clips with floor division, rescale uses post-clip
min/max -/

/-- C3: with both window parameters given, every pixel is clipped to
`[c - w // 2, c + w // 2]` (`//` = floor division, `Int.fdiv`), and the
subsequent rescale of `dicom_to_png` is `normPixel` at the minimum and maximum
of the **clipped** array, not of the original array. -/
theorem c3_window_clip_then_rescale (c w : ℤ) (px : List ℚ) (path : String)
    (hne : px ≠ [])
    (hd : npMin 0 (applyWindow (some c) (some w) px) ≠
          npMax 0 (applyWindow (some c) (some w) px)) :
    applyWindow (some c) (some w) px =
      px.map (fun x =>
        min (max x ((c - Int.fdiv w 2 : ℤ) : ℚ)) ((c + Int.fdiv w 2 : ℤ) : ℚ)) ∧
    dicom_to_png_core (.ok (some px)) (some c) (some w) path =
      .ok ((applyWindow (some c) (some w) px).map
        (normPixel (npMin 0 (applyWindow (some c) (some w) px))
                   (npMax 0 (applyWindow (some c) (some w) px)))) := by
  refine ⟨rfl, ?_⟩
  have hlen : (applyWindow (some c) (some w) px).length ≠ 0 := by
    simp [applyWindow]
    exact hne
  simp only [dicom_to_png_core, dicom_to_png_body]
  rw [if_neg hlen]
  simp only [wrapOuter, normalizeArr]
  rw [if_pos (Ne.symm hd)]

/-! ## C4 — rescale hits 0 and 255 and is monotonic -/

/-- C4: for a pixel array with distinct min and max, the normalization step
outputs an array of the same length whose minimum is `0` and maximum is `255`,
and the per-position mapping is monotone: positions holding `≤`-ordered inputs
hold `≤`-ordered outputs. -/
theorem c4_normalize_range_monotone (l : List ℚ) (hne : l ≠ [])
    (hd : npMin 0 l ≠ npMax 0 l) :
    (normalizeArr l).length = l.length ∧
    npMin 0 (normalizeArr l) = 0 ∧ npMax 0 (normalizeArr l) = 255 ∧
    ∀ (i j : ℕ) (hi : i < l.length) (hj : j < l.length)
      (hi' : i < (normalizeArr l).length) (hj' : j < (normalizeArr l).length),
      l.get ⟨i, hi⟩ ≤ l.get ⟨j, hj⟩ →
      (normalizeArr l).get ⟨i, hi'⟩ ≤ (normalizeArr l).get ⟨j, hj'⟩ := by
  have hmM : npMin 0 l < npMax 0 l :=
    lt_of_le_of_ne (npMin_le 0 l (npMax 0 l) (npMax_mem 0 l hne)) hd
  have heq : normalizeArr l = l.map (normPixel (npMin 0 l) (npMax 0 l)) := by
    unfold normalizeArr
    rw [if_pos (Ne.symm hd)]
  refine ⟨normalizeArr_length l, ?_, ?_, ?_⟩
  · have h0mem : (0:ℕ) ∈ normalizeArr l := by
      rw [heq]
      exact List.mem_map.mpr
        ⟨npMin 0 l, npMin_mem 0 l hne, normPixel_self_min _ _⟩
    exact Nat.le_zero.mp (npMin_le 0 _ 0 h0mem)
  · have h255mem : (255:ℕ) ∈ normalizeArr l := by
      rw [heq]
      exact List.mem_map.mpr
        ⟨npMax 0 l, npMax_mem 0 l hne, normPixel_self_max hmM⟩
    have hne' : normalizeArr l ≠ [] := by
      rw [heq]
      simpa using hne
    have hub : npMax 0 (normalizeArr l) ≤ 255 := by
      have hmem := npMax_mem 0 (normalizeArr l) hne'
      rw [heq] at hmem
      rcases List.mem_map.mp hmem with ⟨x, hx, hfx⟩
      have : npMax 0 (normalizeArr l) = normPixel (npMin 0 l) (npMax 0 l) x := by
        rw [heq, hfx]
      rw [this]
      exact normPixel_le_255 hmM (le_npMax 0 l x hx)
    exact le_antisymm hub (le_npMax 0 _ 255 h255mem)
  · intro i j hi hj hi' hj' hle
    have gi : (normalizeArr l).get ⟨i, hi'⟩ =
        normPixel (npMin 0 l) (npMax 0 l) (l.get ⟨i, hi⟩) := by
      simp [heq, List.get_eq_getElem, List.getElem_map]
    have gj : (normalizeArr l).get ⟨j, hj'⟩ =
        normPixel (npMin 0 l) (npMax 0 l) (l.get ⟨j, hj⟩) := by
      simp [heq, List.get_eq_getElem, List.getElem_map]
    rw [gi, gj]
    exact normPixel_mono hmM (le_npMax 0 l _ (List.get_mem l j hj)) hle

/-! ## C5 — flat arrays map to all-zero output without division -/

/-- C5: when every (possibly already clipped) pixel value is equal, the
normalization step takes the `np.zeros_like` branch — whose computation is
division-free — and returns the all-zero array of the same shape. -/
theorem c5_flat_array_all_zero (l : List ℚ) (a : ℚ) (hne : l ≠ [])
    (hall : ∀ x ∈ l, x = a) :
    normalizeArr l = List.replicate l.length 0 := by
  have hmin : npMin 0 l = a := hall _ (npMin_mem 0 l hne)
  have hmax : npMax 0 l = a := hall _ (npMax_mem 0 l hne)
  unfold normalizeArr
  rw [if_neg (by rw [hmin, hmax]; exact fun h => h rfl)]
  clear hall hmin hmax hne
  induction l with
  | nil => rfl
  | cons b t ih => simp [List.replicate_succ, ih]

/-- Witness for `c3_window_clip_then_rescale` at center 4, width 4,
pixels `[0, 10, 5]` (clipped to `[2, 6]`). -/
theorem c3_window_clip_then_rescale_witness :
    ([0, 10, 5] : List ℚ) ≠ [] ∧
    npMin 0 (applyWindow (some 4) (some 4) [0, 10, 5]) ≠
      npMax 0 (applyWindow (some 4) (some 4) [0, 10, 5]) ∧
    dicom_to_png_core (.ok (some [0, 10, 5])) (some 4) (some 4) "f.dcm" =
      .ok ((applyWindow (some 4) (some 4) [0, 10, 5]).map
        (normPixel (npMin 0 (applyWindow (some 4) (some 4) [0, 10, 5]))
                   (npMax 0 (applyWindow (some 4) (some 4) [0, 10, 5])))) :=
  ⟨by decide, by decide,
    (c3_window_clip_then_rescale 4 4 [0, 10, 5] "f.dcm" (by decide)
      (by decide)).2⟩

/-- Witness for `c4_normalize_range_monotone` on `[0, 2]`. -/
theorem c4_normalize_range_monotone_witness :
    ([0, 2] : List ℚ) ≠ [] ∧ npMin 0 ([0, 2] : List ℚ) ≠ npMax 0 [0, 2] ∧
    npMin 0 (normalizeArr [0, 2]) = 0 ∧ npMax 0 (normalizeArr [0, 2]) = 255 ∧
    (normalizeArr [0, 2]).get ⟨0, by decide⟩ ≤
      (normalizeArr [0, 2]).get ⟨1, by decide⟩ :=
  ⟨by decide, by decide,
    (c4_normalize_range_monotone [0, 2] (by decide) (by decide)).2.1,
    (c4_normalize_range_monotone [0, 2] (by decide) (by decide)).2.2.1,
    (c4_normalize_range_monotone [0, 2] (by decide) (by decide)).2.2.2
      0 1 (by decide) (by decide) (by decide) (by decide) (by decide)⟩

/-- Witness for `c5_flat_array_all_zero` on the flat array `[5, 5]`. -/
theorem c5_flat_array_all_zero_witness :
    ([5, 5] : List ℚ) ≠ [] ∧ (∀ x ∈ ([5, 5] : List ℚ), x = 5) ∧
    normalizeArr [5, 5] = List.replicate 2 0 :=
  ⟨by decide, by decide, c5_flat_array_all_zero [5, 5] 5 (by decide) (by decide)⟩

/-! ## Batch conversion (`batch_convert_dicom_to_png`, src/main.py 115-161)

The directory listing (`os.listdir`) and the per-file converter
(`dicom_to_png`) enter as explicit arguments: `files` is the listing in
enumeration order, and `conv input_path output_path` is the outcome of
`dicom_to_png(input_path, output_path)` (`.ok` returns the saved path). -/

/-- The `for file in os.listdir(...)` loop of `batch_convert_dicom_to_png`
(src/main.py lines 144-155): filter by `isDicomName`, call the converter,
append the returned PNG path and the input path on success, log and skip on
any exception (neither list grows), and continue with the remaining files. -/
def batchGo (conv : String → String → Except PyErr String)
    (input_directory output_directory : String) :
    List String → List String × List String
  | [] => ([], [])
  | file :: rest =>
    let r := batchGo conv input_directory output_directory rest
    if isDicomName file then
      match conv (joinPath input_directory file)
          (joinPath (joinPath output_directory "png")
            (strCat (splitExtStem file) ".png")) with
      | .ok png => (png :: r.1, joinPath input_directory file :: r.2)
      | .error _ => r
    else r

theorem batchGo_length (conv : String → String → Except PyErr String)
    (inDir outDir : String) (files : List String) :
    (batchGo conv inDir outDir files).1.length =
      (batchGo conv inDir outDir files).2.length := by
  induction files with
  | nil => rfl
  | cons f rest ih =>
    simp only [batchGo]
    split
    · split <;> simp [ih]
    · exact ih

theorem batchGo_aligned (conv : String → String → Except PyErr String)
    (inDir outDir : String) (files : List String) :
    ∀ (i : ℕ) (png dcm : String),
      (batchGo conv inDir outDir files).1.get? i = some png →
      (batchGo conv inDir outDir files).2.get? i = some dcm →
      ∃ out, conv dcm out = .ok png := by
  induction files with
  | nil =>
    intro i png dcm h1 h2
    simp [batchGo] at h1
  | cons f rest ih =>
    intro i png dcm h1 h2
    simp only [batchGo] at h1 h2
    by_cases hf : isDicomName f = true
    · rw [if_pos hf] at h1 h2
      rcases hc : conv (joinPath inDir f)
          (joinPath (joinPath outDir "png")
            (strCat (splitExtStem f) ".png")) with e | p
      · rw [hc] at h1 h2
        exact ih i png dcm h1 h2
      · rw [hc] at h1 h2
        cases i with
        | zero =>
          simp only [List.get?_cons_zero, Option.some.injEq] at h1 h2
          subst h1
          subst h2
          exact ⟨_, hc⟩
        | succ n =>
          simp only [List.get?_cons_succ] at h1 h2
          exact ih n png dcm h1 h2
    · rw [if_neg hf] at h1 h2
      exact ih i png dcm h1 h2

theorem batchGo_skip (conv : String → String → Except PyErr String)
    (inDir outDir : String) (file : String) (rest : List String)
    (h : isDicomName file = false ∨
      ∃ e, conv (joinPath inDir file)
        (joinPath (joinPath outDir "png")
          (strCat (splitExtStem file) ".png")) = .error e) :
    batchGo conv inDir outDir (file :: rest) =
      batchGo conv inDir outDir rest := by
  rcases h with h | ⟨e, he⟩
  · simp [batchGo, h]
  · simp [batchGo, he]

/-! ## C6 — batch conversion skips failures and returns aligned lists -/

/-- C6: `batch_convert_dicom_to_png` returns two lists of equal length; at
every index, the returned PNG path is exactly the successful converter result
for the input path at the same index (positional alignment); and any file that
either does not match the DICOM extension filter or whose conversion raises is
skipped — the results for the remaining files are unchanged, so the
enumeration always completes. -/
theorem c6_batch_convert_aligned (conv : String → String → Except PyErr String)
    (inDir outDir : String) (files : List String) :
    ((batchGo conv inDir outDir files).1.length =
      (batchGo conv inDir outDir files).2.length) ∧
    (∀ (i : ℕ) (png dcm : String),
      (batchGo conv inDir outDir files).1.get? i = some png →
      (batchGo conv inDir outDir files).2.get? i = some dcm →
      ∃ out, conv dcm out = .ok png) ∧
    (∀ (file : String) (rest : List String),
      (isDicomName file = false ∨
        ∃ e, conv (joinPath inDir file)
          (joinPath (joinPath outDir "png")
            (strCat (splitExtStem file) ".png")) = .error e) →
      batchGo conv inDir outDir (file :: rest) =
        batchGo conv inDir outDir rest) :=
  ⟨batchGo_length conv inDir outDir files,
   batchGo_aligned conv inDir outDir files,
   fun file rest h => batchGo_skip conv inDir outDir file rest h⟩

/-- A concrete converter oracle for the batch witness: fails on `in/bad.dcm`,
succeeds elsewhere returning the requested output path. -/
def convEx : String → String → Except PyErr String :=
  fun input out =>
    if input = joinPath "in" "bad.dcm" then .error (.generic "boom")
    else .ok out

/-- Witness for `c6_batch_convert_aligned`: a listing with one convertible
file, one non-DICOM file and one failing file. -/
theorem c6_batch_convert_aligned_witness :
    (batchGo convEx "in" "out" ["a.dcm", "x.txt", "bad.dcm"]).1.get? 0 =
      some "out/png/a.png" ∧
    (batchGo convEx "in" "out" ["a.dcm", "x.txt", "bad.dcm"]).2.get? 0 =
      some "in/a.dcm" ∧
    (∃ out, convEx "in/a.dcm" out = .ok "out/png/a.png") ∧
    batchGo convEx "in" "out" ["x.txt", "bad.dcm"] =
      batchGo convEx "in" "out" ["bad.dcm"] :=
  ⟨by decide, by decide,
    (c6_batch_convert_aligned convEx "in" "out"
        ["a.dcm", "x.txt", "bad.dcm"]).2.1
      0 "out/png/a.png" "in/a.dcm" (by decide) (by decide),
    (c6_batch_convert_aligned convEx "in" "out" ["x.txt", "bad.dcm"]).2.2
      "x.txt" ["bad.dcm"] (Or.inl (by decide))⟩

/-! ## CSV export (`write_to_csv`, src/main.py 164-247)

The per-row work re-reads the sibling DICOM file through `DicomTextReader`;
that read enters as the oracle `read`.  The model returns the written rows
(`none` when no file is opened at all for an empty input list) together with
the list of logged warning / per-row error messages. -/

/-- One row of the CSV (`writer.writerow`, src/main.py lines 230-242):
`exam_id` is the literal `0`, `file_path` is the PNG path with backslashes
replaced by forward slashes. -/
structure Row where
  patient_id : String
  exam_id : ℕ
  laterality : String
  view : String
  file_path : String
deriving DecidableEq, Repr

/-- Python `png.replace("\\", "/")`. -/
def replaceBackslash (s : String) : String :=
  ⟨s.data.map (fun c => if c = '\\' then '/' else c)⟩

/-- The trailing-separator strip of `write_to_csv` (src/main.py lines
188-190): when the path ends in `/` or `\`, apply `removesuffix("/")` then
`removesuffix("\\")`. -/
def stripTrailingSeps (p : String) : String :=
  if strEndsWith p "/" || strEndsWith p "\\" then
    removeSuffix (removeSuffix p "/") "\\"
  else p

/-- The sibling-DICOM path recomputed for each PNG (src/main.py lines
221-224): `os.path.join(dicom_path, splitext(basename(png))[0] + ".dcm")` —
the extension is the literal lowercase `".dcm"`. -/
def csvSibling (dicom_path png : String) : String :=
  joinPath dicom_path (strCat (splitExtStem (basename png)) ".dcm")

/-- The row built from a successfully read dataset (src/main.py lines
226-242). -/
def mkRow (png : String) (ds : Dataset) : Row :=
  { patient_id := (get_patient_info ds).patientID
    exam_id := 0
    laterality := (get_study_info ds).laterality
    view := (get_study_info ds).viewPosition
    file_path := replaceBackslash png }

/-- The `for png in png_files` loop of `write_to_csv` (src/main.py lines
221-245): on a per-row exception, log `"Failed to process ..."` and
`continue`; otherwise emit the row. -/
def csvRows (read : String → Except PyErr Dataset) (dicom_path : String) :
    List String → List Row × List String
  | [] => ([], [])
  | png :: rest =>
    let r := csvRows read dicom_path rest
    match read (csvSibling dicom_path png) with
    | .ok ds => (mkRow png ds :: r.1, r.2)
    | .error _ =>
      (r.1, strCat "Failed to process " (csvSibling dicom_path png) :: r.2)

/-- Model of `write_to_csv` (src/main.py lines 164-247), output-path resolution and
the physical file write elided: the empty input list writes nothing and logs
the warning; otherwise the rows of the loop are written. -/
def write_to_csv (read : String → Except PyErr Dataset)
    (png_files : List String) (dicom_path : String) :
    Option (List Row) × List String :=
  if png_files.length = 0 then
    (none, ["No PNG files found for writing to CSV"])
  else
    let r := csvRows read (stripTrailingSeps dicom_path) png_files
    (some r.1, r.2)

theorem csvRows_eq (read : String → Except PyErr Dataset) (dp : String)
    (pngs : List String) :
    csvRows read dp pngs =
      (pngs.filterMap (fun png =>
        match read (csvSibling dp png) with
        | .ok ds => some (mkRow png ds)
        | .error _ => none),
       pngs.filterMap (fun png =>
        match read (csvSibling dp png) with
        | .ok _ => none
        | .error _ => some (strCat "Failed to process " (csvSibling dp png)))) := by
  induction pngs with
  | nil => rfl
  | cons p rest ih =>
    simp only [csvRows, ih, List.filterMap_cons]
    rcases read (csvSibling dp p) with e | ds <;> simp

/-! ## C7 — CSV export: empty input and per-row failures -/

/-- C7: for an empty PNG list, `write_to_csv` writes no file and only logs
the warning; for a non-empty list, exactly the PNGs whose sibling DICOM read
succeeds contribute a row (in order), and each failing sibling read
contributes a logged failure message and is skipped — the export completes
with all readable rows written. -/
theorem c7_csv_empty_warn_skip_failures (read : String → Except PyErr Dataset)
    (png_files : List String) (dicom_path : String) :
    (png_files = [] →
      write_to_csv read png_files dicom_path =
        (none, ["No PNG files found for writing to CSV"])) ∧
    (png_files ≠ [] →
      (write_to_csv read png_files dicom_path).1 =
        some (png_files.filterMap (fun png =>
          match read (csvSibling (stripTrailingSeps dicom_path) png) with
          | .ok ds => some (mkRow png ds)
          | .error _ => none)) ∧
      (write_to_csv read png_files dicom_path).2 =
        png_files.filterMap (fun png =>
          match read (csvSibling (stripTrailingSeps dicom_path) png) with
          | .ok _ => none
          | .error _ => some (strCat "Failed to process "
              (csvSibling (stripTrailingSeps dicom_path) png)))) := by
  constructor
  · intro h
    subst h
    rfl
  · intro h
    have hlen : png_files.length ≠ 0 := by
      simpa [List.length_eq_zero] using h
    unfold write_to_csv
    rw [if_neg hlen]
    rw [csvRows_eq]
    exact ⟨rfl, rfl⟩

/-- A concrete dataset for the CSV witnesses. -/
def dsEx : Dataset :=
  { patientID := some "P1", laterality := some "L", viewPosition := some "MLO" }

/-- A concrete sibling-read oracle: only `dir/a.dcm` is readable. -/
def readEx : String → Except PyErr Dataset :=
  fun p => if p = "dir/a.dcm" then .ok dsEx else .error (.invalidDicom "bad")

/-- Witness for `c7_csv_empty_warn_skip_failures`: the empty list writes
nothing; with one readable and one unreadable sibling, exactly the readable
row is written. -/
theorem c7_csv_empty_warn_skip_failures_witness :
    write_to_csv readEx [] "dir" =
      (none, ["No PNG files found for writing to CSV"]) ∧
    (write_to_csv readEx ["out/png/a.png", "out/png/b.png"] "dir").1 =
      some [mkRow "out/png/a.png" dsEx] :=
  ⟨(c7_csv_empty_warn_skip_failures readEx [] "dir").1 rfl, by
    have h := ((c7_csv_empty_warn_skip_failures readEx
      ["out/png/a.png", "out/png/b.png"] "dir").2 (by decide)).1
    rw [h]
    decide⟩

/-! ### String lemmas for the sibling-path computation -/

theorem any_rev (p : Char → Bool) (l : List Char) :
    l.reverse.any p = l.any p := by
  induction l with
  | nil => rfl
  | cons c t ih => simp [List.any_append, ih, Bool.or_comm]

theorem splitExtAux_append (ext rest : List Char)
    (hnd : ∀ c ∈ ext, c ≠ '.') :
    splitExtAux (ext ++ '.' :: rest) =
      if rest.any (fun d => d != '.') then some rest else none := by
  induction ext with
  | nil => simp [splitExtAux]
  | cons c t ih =>
    have hc : c ≠ '.' := hnd c (List.mem_cons_self c t)
    simp only [List.cons_append, splitExtAux, if_neg hc]
    exact ih (fun d hd => hnd d (List.mem_cons_of_mem c hd))

theorem splitExtStem_append (stem body : List Char)
    (hb : ∀ c ∈ body, c ≠ '.')
    (hs : stem.any (fun c => c != '.') = true) :
    splitExtStem ⟨stem ++ '.' :: body⟩ = ⟨stem⟩ := by
  unfold splitExtStem
  have hrev : (stem ++ '.' :: body).reverse =
      body.reverse ++ '.' :: stem.reverse := by
    simp
  rw [show (⟨stem ++ '.' :: body⟩ : String).data = stem ++ '.' :: body from rfl,
    hrev, splitExtAux_append _ _ (fun c hc => hb c (List.mem_reverse.mp hc)),
    if_pos (by rw [any_rev]; exact hs)]
  simp

theorem takeWhile_append_stop (p : Char → Bool) (l : List Char)
    (hl : ∀ c ∈ l, p c = true) (x : Char) (hx : p x = false) (r : List Char) :
    (l ++ x :: r).takeWhile p = l := by
  induction l with
  | nil => simp [List.takeWhile_cons, hx]
  | cons c t ih =>
    have hc := hl c (List.mem_cons_self c t)
    simp [List.takeWhile_cons, hc,
      ih (fun d hd => hl d (List.mem_cons_of_mem c hd))]

theorem basename_joinPath (a : String) (b : List Char) (hb : '/' ∉ b) :
    basename ⟨a.data ++ '/' :: b⟩ = ⟨b⟩ := by
  unfold basename
  have hb' : ∀ c ∈ b.reverse, (c != '/') = true := by
    intro c hc
    have : c ∈ b := List.mem_reverse.mp hc
    simp only [bne_iff_ne]
    intro h
    exact hb (h ▸ this)
  rw [show (⟨a.data ++ '/' :: b⟩ : String).data = a.data ++ '/' :: b from rfl]
  rw [show (a.data ++ '/' :: b).reverse =
      b.reverse ++ '/' :: a.data.reverse by simp]
  rw [takeWhile_append_stop _ _ hb' '/' (by simp) a.data.reverse]
  rw [List.reverse_reverse]

/-! ## C9 — CSV sibling lookup hard-codes the lowercase `.dcm` extension -/

/-- C9: for a PNG produced by the batch loop from an input file
`stem + '.' + extBody` (any extension accepted by the batch filter), the CSV
export recomputes the sibling DICOM path as the source directory joined with
the base name plus the literal lowercase `".dcm"`; whenever the original
extension was not exactly `".dcm"` (e.g. `".dicom"` or any uppercase
variant), that recomputed path differs from the original input path, and when
reading it fails (no such `.dcm` file), the PNG's row is skipped while the
export still completes. -/
theorem c9_sibling_path_lowercase_dcm (dir outDir : String)
    (stem extBody : List Char)
    (hsep : '/' ∉ stem)
    (hstem : stem.any (fun c => c != '.') = true)
    (hnodot : ∀ c ∈ extBody, c ≠ '.')
    (_hmatch : isDicomName ⟨stem ++ '.' :: extBody⟩ = true)
    (hne : ('.' :: extBody : List Char) ≠ ".dcm".data)
    (read : String → Except PyErr Dataset) (e : PyErr)
    (hread : read (csvSibling (stripTrailingSeps dir)
        (joinPath (joinPath outDir "png")
          (strCat (splitExtStem ⟨stem ++ '.' :: extBody⟩) ".png"))) =
      .error e) :
    csvSibling dir (joinPath (joinPath outDir "png")
        (strCat (splitExtStem ⟨stem ++ '.' :: extBody⟩) ".png")) =
      joinPath dir ⟨stem ++ ".dcm".data⟩ ∧
    csvSibling dir (joinPath (joinPath outDir "png")
        (strCat (splitExtStem ⟨stem ++ '.' :: extBody⟩) ".png")) ≠
      joinPath dir ⟨stem ++ '.' :: extBody⟩ ∧
    (write_to_csv read
      [joinPath (joinPath outDir "png")
        (strCat (splitExtStem ⟨stem ++ '.' :: extBody⟩) ".png")] dir).1 =
      some [] := by
  have hstem_eq : splitExtStem ⟨stem ++ '.' :: extBody⟩ = ⟨stem⟩ :=
    splitExtStem_append stem extBody hnodot hstem
  have hpng : strCat (splitExtStem ⟨stem ++ '.' :: extBody⟩) ".png" =
      ⟨stem ++ ".png".data⟩ := by
    rw [hstem_eq]
    rfl
  have hnosep : '/' ∉ stem ++ ".png".data := by
    intro h
    rcases List.mem_append.mp h with h | h
    · exact hsep h
    · simp at h
  have hbase : basename (joinPath (joinPath outDir "png")
      ⟨stem ++ ".png".data⟩) = ⟨stem ++ ".png".data⟩ :=
    basename_joinPath (joinPath outDir "png") _ hnosep
  have hstem2 : splitExtStem ⟨stem ++ ".png".data⟩ = ⟨stem⟩ := by
    rw [show stem ++ ".png".data = stem ++ '.' :: ['p', 'n', 'g'] from rfl]
    exact splitExtStem_append stem ['p', 'n', 'g'] (by decide) hstem
  have hsib : csvSibling dir (joinPath (joinPath outDir "png")
      (strCat (splitExtStem ⟨stem ++ '.' :: extBody⟩) ".png")) =
      joinPath dir ⟨stem ++ ".dcm".data⟩ := by
    rw [hpng]
    unfold csvSibling
    rw [hbase, hstem2]
    rfl
  refine ⟨hsib, ?_, ?_⟩
  · rw [hsib]
    intro h
    have h2 : dir.data ++ '/' :: (stem ++ ".dcm".data) =
        dir.data ++ '/' :: (stem ++ '.' :: extBody) :=
      congrArg String.data h
    have h3 := List.append_cancel_left h2
    injection h3 with _ h4
    have h5 := List.append_cancel_left h4
    exact hne h5.symm
  · simp only [write_to_csv]
    rw [if_neg (by simp)]
    simp [csvRows, hread]

/-- A sibling-read oracle that always fails (no `.dcm` file exists). -/
def readFailEx : String → Except PyErr Dataset :=
  fun _ => .error (.fileNotFound "nf")

/-- Witness for `c9_sibling_path_lowercase_dcm` with input `scan.dicom`. -/
theorem c9_sibling_path_lowercase_dcm_witness :
    csvSibling "dir" (joinPath (joinPath "out" "png")
        (strCat (splitExtStem ⟨"scan".data ++ '.' :: "dicom".data⟩) ".png")) =
      joinPath "dir" ⟨"scan".data ++ ".dcm".data⟩ ∧
    csvSibling "dir" (joinPath (joinPath "out" "png")
        (strCat (splitExtStem ⟨"scan".data ++ '.' :: "dicom".data⟩) ".png")) ≠
      joinPath "dir" ⟨"scan".data ++ '.' :: "dicom".data⟩ ∧
    (write_to_csv readFailEx
      [joinPath (joinPath "out" "png")
        (strCat (splitExtStem ⟨"scan".data ++ '.' :: "dicom".data⟩) ".png")]
      "dir").1 = some [] :=
  c9_sibling_path_lowercase_dcm "dir" "out" "scan".data "dicom".data
    (by decide) (by decide) (by decide) (by decide) (by decide)
    readFailEx (.fileNotFound "nf") rfl

/-! ## In-place metadata rewrite (`DicomTextReader.write_info`,
src/utils/text_reader.py 103-163)

The two subprocess interactions enter as oracles: the availability probe
`subprocess.run(["dcmodify", "--version"])` (which may raise
`FileNotFoundError` or return an exit status), and the actual `dcmodify`
invocation via `Popen`/`communicate` (exit status plus captured stdout and
stderr). -/

/-- Outcome of the `dcmodify --version` availability probe. -/
inductive ToolCheckResult where
  | notFound
  | ran (returncode : ℤ)
deriving DecidableEq, Repr

/-- Outcome of the `dcmodify` tag-edit invocation
(`process.communicate()` plus `process.returncode`). -/
structure ToolRun where
  returncode : ℤ
  toolOut : String
  toolErr : String
deriving DecidableEq, Repr

/-- The install-guidance `OSError` message of `write_info` (src/utils/
text_reader.py lines 133-151; the triple-quoted indentation is elided). -/
def installMsg : String :=
  strCat "dcmodify is not installed. Please install it first. "
    "You can install it by running: apt-get install dcmtk"

/-- Python `str(x)` of an `Optional[str]` inside an f-string: `None` prints
as `"None"`. -/
def optStr : Option String → String
  | some s => s
  | none => "None"

/-- The `dcmodify` command line of `write_info` (src/utils/text_reader.py
lines 153-154).  The Python source continues the f-string with a
backslash-newline, so the 12 spaces of the continuation line's indentation
are part of the literal, right before the series value. -/
def mkCommand (side : Option String) (series filepath : String) : String :=
  strCat (strCat (strCat (strCat (strCat
    "dcmodify -i \"(0020,0062)=" (optStr side))
    "\" -i \"(0008,103e)=")
    "            ")
    (strCat series "\" "))
    filepath

/-- The `side_str` resolution of `write_info` (src/utils/text_reader.py
lines 119-122): `dcm.ImageLaterality`, falling back to the `laterality`
argument when the attribute is absent. -/
def sideOf (ds : Dataset) (laterality : Option String) : Option String :=
  match ds.imageLaterality with
  | some s => some s
  | none => laterality

/-- Model of `DicomTextReader.write_info` (src/utils/text_reader.py lines 103-163).
Control flow in source order:

1. `view_str = dcm.ViewPosition` — when the attribute is absent the
   `except AttributeError` handler evaluates `dcm.ViewPosition` **again**
   (line 117) and the second `AttributeError` escapes; when present but
   blank, the `view` argument is substituted (and then never used);
2. `side_str` via `sideOf`;
3. `series_str = dcm.SOPClassUID` — absent attribute raises;
4. availability probe: `FileNotFoundError` or non-zero exit each raise the
   install-guidance `OSError`;
5. the `dcmodify` call: a non-zero exit status only prints the command and
   captured stdout and logs the command and captured stderr — **no exception
   is raised** — and the function returns normally.

The returned list holds the printed/logged messages of step 5 in order
(printed command, printed stdout, logged command, logged stderr). -/
def write_info (ds : Dataset) (laterality view : Option String)
    (check : ToolCheckResult) (run : ToolRun) (filepath : String) :
    Except PyErr (List String) :=
  match ds.viewPosition with
  | none => .error (.attributeError "ViewPosition")
  | some v =>
    let _view_str : Option String := if v = "" then view else some v
    let side_str := sideOf ds laterality
    match ds.sopClassUID with
    | none => .error (.attributeError "SOPClassUID")
    | some series_str =>
      match check with
      | .notFound => .error (.osError installMsg)
      | .ran rc =>
        if rc ≠ 0 then .error (.osError installMsg)
        else
          let command := mkCommand side_str series_str filepath
          if run.returncode ≠ 0 then
            .ok [strCat "Error executing command: " command,
                 strCat "Error message: " run.toolOut,
                 strCat "Error executing command: " command,
                 strCat "Error message: " run.toolErr]
          else .ok []

/-- Model of `get_study_info` with `modfiy=True` (src/utils/text_reader.py lines
200-201): build the response, then call
`write_info(response["Laterality"], response["ViewPosition"])`. -/
def get_study_info_modify (ds : Dataset) (check : ToolCheckResult)
    (run : ToolRun) (filepath : String) : Except PyErr StudyInfo :=
  let response := get_study_info ds
  match write_info ds (some response.laterality) (some response.viewPosition)
      check run filepath with
  | .error e => .error e
  | .ok _ => .ok response

/-! ## C8 — non-zero `dcmodify` exit is logged, not raised -/

/-- A dataset on which every step of `write_info` before the `dcmodify` call
succeeds. -/
def dsC8 : Dataset :=
  { viewPosition := some "MLO", imageLaterality := some "L",
    sopClassUID := some "1.2.840" }

/-- A `dcmodify` run that exits with status 1 and stderr `"boom"`. -/
def runC8 : ToolRun := { returncode := 1, toolOut := "out", toolErr := "boom" }

/-- C8 counterexample: with the tool available and the `dcmodify` invocation
exiting non-zero, `write_info` does **not** fail — it returns normally (no
exception of any kind reaches the caller), so the exit status and captured
error stream are not surfaced as part of a failure of the rewrite. -/
theorem c8_nonzero_exit_no_failure_counterexample :
    runC8.returncode ≠ 0 ∧
    (∀ e, write_info dsC8 none none (.ran 0) runC8 "f.dcm" ≠ .error e) ∧
    write_info dsC8 none none (.ran 0) runC8 "f.dcm" =
      .ok [strCat "Error executing command: "
             (mkCommand (some "L") "1.2.840" "f.dcm"),
           strCat "Error message: " "out",
           strCat "Error executing command: "
             (mkCommand (some "L") "1.2.840" "f.dcm"),
           strCat "Error message: " "boom"] := by
  have hok : write_info dsC8 none none (.ran 0) runC8 "f.dcm" =
      .ok [strCat "Error executing command: "
             (mkCommand (some "L") "1.2.840" "f.dcm"),
           strCat "Error message: " "out",
           strCat "Error executing command: "
             (mkCommand (some "L") "1.2.840" "f.dcm"),
           strCat "Error message: " "boom"] := rfl
  refine ⟨by decide, ?_, hok⟩
  intro e h
  rw [hok] at h
  exact Except.noConfusion h

/-- C8 (amended): when the availability probe succeeds and the `dcmodify`
invocation exits non-zero, `write_info` prints the command and the captured
stdout, logs the command and the captured stderr, and returns normally —
the failure is surfaced only through these printed/logged messages, never as
an error to the caller. -/
theorem c8_nonzero_exit_logged_returns_ok (ds : Dataset) (v series : String)
    (lat view : Option String) (run : ToolRun) (fp : String)
    (hv : ds.viewPosition = some v) (hs : ds.sopClassUID = some series)
    (hrc : run.returncode ≠ 0) :
    write_info ds lat view (.ran 0) run fp =
      .ok [strCat "Error executing command: "
             (mkCommand (sideOf ds lat) series fp),
           strCat "Error message: " run.toolOut,
           strCat "Error executing command: "
             (mkCommand (sideOf ds lat) series fp),
           strCat "Error message: " run.toolErr] := by
  simp [write_info, hv, hs, hrc]

/-- Witness for `c8_nonzero_exit_logged_returns_ok` at `dsC8` / `runC8`. -/
theorem c8_nonzero_exit_logged_returns_ok_witness :
    dsC8.viewPosition = some "MLO" ∧ dsC8.sopClassUID = some "1.2.840" ∧
    runC8.returncode ≠ 0 ∧
    write_info dsC8 (some "R") none (.ran 0) runC8 "f.dcm" =
      .ok [strCat "Error executing command: "
             (mkCommand (sideOf dsC8 (some "R")) "1.2.840" "f.dcm"),
           strCat "Error message: " runC8.toolOut,
           strCat "Error executing command: "
             (mkCommand (sideOf dsC8 (some "R")) "1.2.840" "f.dcm"),
           strCat "Error message: " runC8.toolErr] :=
  ⟨rfl, rfl, by decide,
    c8_nonzero_exit_logged_returns_ok dsC8 "MLO" "1.2.840" (some "R") none
      runC8 "f.dcm" rfl rfl (by decide)⟩

/-! ## C10 — missing `ViewPosition` re-raises inside the fallback handler -/

/-- A dataset without a `ViewPosition` attribute. -/
def dsC10 : Dataset := { laterality := some "L" }

/-- C10: when the dataset has no `ViewPosition` attribute, `write_info`
raises the attribute-access error — the `except AttributeError` handler reads
the same missing attribute again — and the result does not depend on the
`view` argument nor on either subprocess oracle: the error occurs before the
external tool could be invoked and without consuming `view`.  The same error
propagates out of `get_study_info(modfiy=True)`. -/
theorem c10_missing_view_position_raises (ds : Dataset)
    (h : ds.viewPosition = none) :
    (∀ (lat view : Option String) (check : ToolCheckResult) (run : ToolRun)
        (fp : String),
      write_info ds lat view check run fp =
        .error (.attributeError "ViewPosition")) ∧
    (∀ (check : ToolCheckResult) (run : ToolRun) (fp : String),
      get_study_info_modify ds check run fp =
        .error (.attributeError "ViewPosition")) := by
  constructor
  · intro lat view check run fp
    simp [write_info, h]
  · intro check run fp
    simp [get_study_info_modify, write_info, h]

/-- Witness for `c10_missing_view_position_raises` at `dsC10`. -/
theorem c10_missing_view_position_raises_witness :
    dsC10.viewPosition = none ∧
    write_info dsC10 none (some "MLO") .notFound
      { returncode := 0, toolOut := "", toolErr := "" } "f.dcm" =
      .error (.attributeError "ViewPosition") ∧
    get_study_info_modify dsC10 .notFound
      { returncode := 0, toolOut := "", toolErr := "" } "f.dcm" =
      .error (.attributeError "ViewPosition") :=
  ⟨rfl,
    (c10_missing_view_position_raises dsC10 rfl).1 none (some "MLO")
      .notFound { returncode := 0, toolOut := "", toolErr := "" } "f.dcm",
    (c10_missing_view_position_raises dsC10 rfl).2 .notFound
      { returncode := 0, toolOut := "", toolErr := "" } "f.dcm"⟩
